import Mathlib

/-!
# Frame transcoding of `cmd/pdcp/main.go`

A shallow embedding of the convergence-layer relay: the policy lookup
(`checkRetransmission`, `getprotoname`), the two in-place transforms
(`PDCPDataFromEthernetFrame`, `PDCPDataToEthernetFrame`) and one iteration of
each relay loop (`xmithandle`, `recvhandle`).

Bytes and machine integers are natural numbers; a Go slice is the list of its
visible elements together with the spare elements of its backing array that
lie between its length and its capacity.  A runtime panic is an explicit
result (`Except Fault`), an `error` return value is an `Option String`.
-/

namespace Pdcp

/-! ## Constants of `main.go` -/

def MTU_SIZE : Nat := 1514
def PROTO_ICMP : Nat := 1
def PROTO_TCP : Nat := 6
def PROTO_UDP : Nat := 17

def ETH_HEADLEN : Nat := 14
def ETH_ADDRLEN : Nat := 6
def ETH_SRC_OFFSET : Nat := 6
def ETH_TYPE_OFFSET : Nat := 12
def ETH_TYPE_OFFSET_LB : Nat := 13
def ETH_TYPE_LEN : Nat := 2

def ETH_TYPEIP_U16 : Nat := 0x0800
def ETH_TYPEIP_U8 : Nat := 0x08
def ETH_IP_HTOTLEN : Nat := 38
def ETH_IPPROTO_OFFSET : Nat := 23
def ETH_IPDST_OFFSET : Nat := 30
def ETH_IPDST_LEN : Nat := 4
def ETH_DSTPORT_OFFSET : Nat := 36
def ETH_DSTPORT_LEN : Nat := 2

def ETH_PDCP_ADDR_OFFSET : Nat := 5

def ETH_PDCP_SRC_OFFSET : Nat := 10
def ETH_PDCP_DST_OFFSET : Nat := 11
def ETH_PDCP_RETR_OFFSET : Nat := 12
def ETH_PDCP_INTV_OFFSET : Nat := 13

/-! ## Go runtime: panics and slices -/

/-- Runtime panics a slice operation can raise. -/
inductive Fault where
  | indexOutOfRange
  | sliceBoundsOutOfRange
  deriving DecidableEq, Repr

/-- A byte slice: `elems` are the `len` visible bytes, `spare` the bytes of the
backing array between `len` and `cap`. -/
structure Slice where
  elems : List Nat
  spare : List Nat
  deriving DecidableEq, Repr

/-- The backing array as seen from the slice's first element. -/
def Slice.backing (s : Slice) : List Nat := s.elems ++ s.spare

def Slice.len (s : Slice) : Nat := s.elems.length

def Slice.cap (s : Slice) : Nat := s.elems.length + s.spare.length

/-- Index expression `s[i]`: panics unless `i < len(s)`. -/
def Slice.index (s : Slice) (i : Nat) : Except Fault Nat :=
  match s.elems[i]? with
  | some x => pure x
  | none => throw Fault.indexOutOfRange

/-- Assignment `s[i] = x`: panics unless `i < len(s)`. -/
def Slice.assign (s : Slice) (i : Nat) (x : Nat) : Except Fault Slice :=
  if i < s.elems.length then pure { s with elems := s.elems.set i x }
  else throw Fault.indexOutOfRange

/-- A sub-slice `s[lo:hi]` of a frame, kept as its bounds: it shares the
backing array of `s`, so it is read and written through the frame. -/
structure View where
  lo : Nat
  hi : Nat
  deriving DecidableEq, Repr

/-- Slice expression `s[lo:hi]`: panics unless `lo ≤ hi ≤ cap(s)`. -/
def Slice.slice (s : Slice) (lo hi : Nat) : Except Fault View :=
  if lo ≤ hi ∧ hi ≤ s.cap then pure ⟨lo, hi⟩
  else throw Fault.sliceBoundsOutOfRange

/-- Index expression `v[i]` on a sub-slice `v` of `s`: panics unless
`i < len(v)`. -/
def Slice.viewIndex (s : Slice) (v : View) (i : Nat) : Except Fault Nat :=
  if i < v.hi - v.lo then
    match s.backing[v.lo + i]? with
    | some x => pure x
    | none => throw Fault.indexOutOfRange
  else throw Fault.indexOutOfRange

/-- Writes `xs` into `arr` from position `pos` on. -/
def writeAt : List Nat → Nat → List Nat → List Nat
  | arr, _, [] => arr
  | arr, pos, x :: xs => writeAt (arr.set pos x) (pos + 1) xs

/-- The builtin `copy(v, src)` on a sub-slice `v` of `s`: copies
`min(len(v), len(src))` bytes. -/
def Slice.copyInto (s : Slice) (v : View) (src : List Nat) : Slice :=
  let arr := writeAt s.backing v.lo (src.take (v.hi - v.lo))
  { elems := arr.take s.elems.length, spare := arr.drop s.elems.length }

/-- The value `uint16(b1) | uint16(b0)<<8` of two bytes, high byte first. -/
def beUint16 (b0 b1 : Nat) : Nat := (b0 % 256) * 256 + b1 % 256

/-- Reads `binary.BigEndian.Uint16(v)` for a sub-slice `v` of `s`: the
library indexes `v[1]` first (its bounds check), then combines the two
bytes. -/
def BigEndianUint16 (s : Slice) (v : View) : Except Fault Nat := do
  let b1 ← s.viewIndex v 1
  let b0 ← s.viewIndex v 0
  pure (beUint16 b0 b1)

/-- Slice expression `s[lo:hi]` as a slice of its own, for passing on. -/
def Slice.reslice (s : Slice) (lo hi : Nat) : Except Fault Slice :=
  if lo ≤ hi ∧ hi ≤ s.cap then
    pure { elems := (s.backing.drop lo).take (hi - lo), spare := s.backing.drop hi }
  else throw Fault.sliceBoundsOutOfRange

/-- The bytes of a sub-slice `v` of `s` (a `net.IP(v)` conversion reads
them). -/
def Slice.viewBytes (s : Slice) (v : View) : List Nat :=
  (s.backing.drop v.lo).take (v.hi - v.lo)

/-! ## `strconv.Atoi` on a 64-bit platform -/

inductive NumError where
  | ErrSyntax
  | ErrRange
  deriving DecidableEq, Repr

def maxUint64 : Nat := 2 ^ 64 - 1

/-- The digit loop of `strconv.ParseUint(s, 10, 64)`: a character that is not
a decimal digit is a syntax error, an overflow stops the loop at once with the
largest value and a range error. -/
def parseUintLoop : List Char → Nat → Nat × Option NumError
  | [], n => (n, none)
  | c :: cs, n =>
    if c.isDigit then
      if n ≥ maxUint64 / 10 + 1 then (maxUint64, some NumError.ErrRange)
      else
        let n1 := n * 10 + (c.toNat - 48)
        if n1 > maxUint64 then (maxUint64, some NumError.ErrRange)
        else parseUintLoop cs n1
    else (0, some NumError.ErrSyntax)

/-- Models `strconv.ParseUint(s, 10, 64)`. -/
def ParseUint (s : List Char) : Nat × Option NumError :=
  if s = [] then (0, some NumError.ErrSyntax) else parseUintLoop s 0

/-- Models `strconv.ParseInt(s, 10, 0)` with 64-bit `int`. -/
def ParseInt (s : List Char) : Int × Option NumError :=
  match s with
  | [] => (0, some NumError.ErrSyntax)
  | c :: cs =>
    let neg := c = '-'
    let rest := if c = '+' ∨ c = '-' then cs else c :: cs
    match ParseUint rest with
    | (_, some NumError.ErrSyntax) => (0, some NumError.ErrSyntax)
    | (un, _) =>
      let cutoff : Nat := 2 ^ 63
      if ¬ neg ∧ un ≥ cutoff then (((cutoff - 1 : Nat) : Int), some NumError.ErrRange)
      else if neg ∧ un > cutoff then (-(cutoff : Int), some NumError.ErrRange)
      else (if neg then -(un : Int) else (un : Int), none)

/-- The digit loop of the fast path of `strconv.Atoi`. -/
def atoiFastLoop : List Char → Int → Int × Option NumError
  | [], n => (n, none)
  | c :: cs, n =>
    if c.isDigit then atoiFastLoop cs (n * 10 + ((c.toNat - 48 : Nat) : Int))
    else (0, some NumError.ErrSyntax)

/-- Models `strconv.Atoi`: strings of 1 to 18 bytes take the fast path, the
others go through `ParseInt`. -/
def Atoi (s : String) : Int × Option NumError :=
  if 0 < s.utf8ByteSize ∧ s.utf8ByteSize < 19 then
    match s.data with
    | [] => (0, some NumError.ErrSyntax)
    | c :: cs =>
      let rest := if c = '-' ∨ c = '+' then cs else c :: cs
      if rest = [] then (0, some NumError.ErrSyntax)
      else
        match atoiFastLoop rest 0 with
        | (n, none) => (if c = '-' then -n else n, none)
        | (_, some e) => (0, some e)
  else ParseInt s.data

/-- The conversion `uint8(rt)` of an `int`. -/
def uint8 (rt : Int) : Nat := (rt % 256).toNat

/-! ## Policy table and the Retransmission Resolver -/

/-- The `Config` of `main.go`; the `map[string]string` is its lookup
function. -/
structure Config where
  MacBaseAddr : String
  Sessions : String → Option String

/-- Renders `net.IP.String()` for an address of 4 bytes: dotted decimal.  An
empty address prints `<nil>`; other lengths are not produced by this program
(its only caller passes a 4-byte sub-slice) and stand for a placeholder. -/
def ipString : List Nat → String
  | [] => "<nil>"
  | [a, b, c, d] => toString a ++ "." ++ toString b ++ "." ++ toString c ++ "." ++ toString d
  | _ => "?"

def getprotoname (protocol : Nat) : String :=
  if protocol = PROTO_ICMP then "icmp"
  else if protocol = PROTO_TCP then "tcp"
  else if protocol = PROTO_UDP then "udp"
  else "unknown"

/-- The key `fmt.Sprintf("%s@%s:%d", protoname, dstIP, dstPort)`. -/
def sessionKey (protoname : String) (dstIP : List Nat) (dstPort : Nat) : String :=
  protoname ++ "@" ++ ipString dstIP ++ ":" ++ toString dstPort

def checkRetransmission (config : Config) (dstIP : List Nat) (protocol : Nat)
    (dstPort : Nat) : Nat :=
  let protoname := getprotoname protocol
  let key := sessionKey protoname dstIP dstPort
  match config.Sessions key with
  | some val => uint8 (Atoi val).1
  | none => 0

/-! ## The Frame Transcoder -/

def errTruncated : String := "不完全なEthernetフレームです"

def errNotIPv4 : String := "IPv4ではありません"

/-- Encapsulation.  The frame is mutated in place: the result carries the
frame after the call and the returned `error` (`none` for `nil`). -/
def PDCPDataFromEthernetFrame (config : Config) (txframe : Slice) :
    Except Fault (Slice × Option String) := do
  let mut txframe := txframe
  let mut dstPort := 0
  if txframe.len < ETH_HEADLEN then
    return (txframe, some errTruncated)
  let dstMAC ← txframe.slice 0 ETH_ADDRLEN
  let srcMAC ← txframe.slice ETH_SRC_OFFSET (ETH_SRC_OFFSET + ETH_ADDRLEN)
  let ethTypeField ← txframe.slice ETH_TYPE_OFFSET (ETH_TYPE_OFFSET + ETH_TYPE_LEN)
  let ethType ← BigEndianUint16 txframe ethTypeField
  if ethType ≠ ETH_TYPEIP_U16 ∨ txframe.len < ETH_IP_HTOTLEN then
    return (txframe, some errNotIPv4)
  let dstIPField ← txframe.slice ETH_IPDST_OFFSET (ETH_IPDST_OFFSET + ETH_IPDST_LEN)
  let dstIP := txframe.viewBytes dstIPField
  let protocol ← txframe.index ETH_IPPROTO_OFFSET
  let protoname := getprotoname protocol
  if protoname = "icmp" then
    dstPort := 0
  else
    let dstPortField ← txframe.slice ETH_DSTPORT_OFFSET (ETH_DSTPORT_OFFSET + ETH_DSTPORT_LEN)
    dstPort ← BigEndianUint16 txframe dstPortField
  let retransmit := checkRetransmission config dstIP protocol dstPort
  let srcNode ← txframe.viewIndex srcMAC ETH_PDCP_ADDR_OFFSET
  let dstNode ← txframe.viewIndex dstMAC ETH_PDCP_ADDR_OFFSET
  let interleave := 0x00
  txframe ← txframe.assign ETH_PDCP_SRC_OFFSET srcNode
  txframe ← txframe.assign ETH_PDCP_DST_OFFSET dstNode
  txframe ← txframe.assign ETH_PDCP_RETR_OFFSET retransmit
  txframe ← txframe.assign ETH_PDCP_INTV_OFFSET interleave
  return (txframe, none)

/-- Decapsulation, in place like encapsulation; it always returns `nil`. -/
def PDCPDataToEthernetFrame (_config : Config) (rxFrame : Slice) (basemac : List Nat) :
    Except Fault (Slice × Option String) := do
  let mut rxFrame := rxFrame
  let srcNode ← rxFrame.index ETH_PDCP_SRC_OFFSET
  let dstNode ← rxFrame.index ETH_PDCP_DST_OFFSET
  let dstField ← rxFrame.slice 0 ETH_ADDRLEN
  rxFrame := rxFrame.copyInto dstField basemac
  let srcField ← rxFrame.slice ETH_SRC_OFFSET (ETH_SRC_OFFSET + ETH_ADDRLEN)
  rxFrame := rxFrame.copyInto srcField basemac
  rxFrame ← rxFrame.assign ETH_PDCP_ADDR_OFFSET dstNode
  rxFrame ← rxFrame.assign (ETH_SRC_OFFSET + ETH_PDCP_ADDR_OFFSET) srcNode
  rxFrame ← rxFrame.assign ETH_TYPE_OFFSET ETH_TYPEIP_U8
  rxFrame ← rxFrame.assign ETH_TYPE_OFFSET_LB 0x00
  return (rxFrame, none)

/-! ## The Relay Engine: one iteration of each loop -/

/-- How one iteration of a relay loop ends. -/
inductive Step where
  | dropped
  | sent (datagram : List Nat)
  deriving DecidableEq, Repr

/-- A buffer made by `make([]byte, n)` and later refilled: length and capacity
are the whole array. -/
def Slice.ofArray (buf : List Nat) : Slice := { elems := buf, spare := [] }

/-- One iteration of the loop of `xmithandle` on the loop's buffer `buf`.
`rd` is what `conn.ReadFromUDP(buf)` receives: `none` for a read error, else
the datagram, of which the first `len(buf)` bytes are stored.  The result is
the buffer after the iteration and how the iteration ended. -/
def xmithandle (config : Config) (buf : List Nat) (rd : Option (List Nat)) :
    Except Fault (List Nat × Step) := do
  match rd with
  | none => return (buf, Step.dropped)
  | some d =>
    let n := min d.length buf.length
    let buf := d.take n ++ buf.drop n
    let txframe ← (Slice.ofArray buf).reslice 0 n
    let (txframe, err) ← PDCPDataFromEthernetFrame config txframe
    let buf := txframe.backing
    if err.isSome then
      return (buf, Step.dropped)
    let out ← (Slice.ofArray buf).reslice 10 n
    return (buf, Step.sent out.elems)

/-- One iteration of the loop of `recvhandle`, as for `xmithandle`; the
datagram is read into `buf[10:]`. -/
def recvhandle (config : Config) (basemac : List Nat) (buf : List Nat)
    (rd : Option (List Nat)) : Except Fault (List Nat × Step) := do
  let window ← (Slice.ofArray buf).reslice 10 buf.length
  match rd with
  | none => return (buf, Step.dropped)
  | some d =>
    let n := min d.length window.len
    let buf := buf.take 10 ++ (d.take n ++ window.elems.drop n)
    if n > 1504 then
      return (buf, Step.dropped)
    let rxFrame ← (Slice.ofArray buf).reslice 0 n
    let (rxFrame, err) ← PDCPDataToEthernetFrame config rxFrame basemac
    let buf := rxFrame.backing
    if err.isSome then
      return (buf, Step.dropped)
    let out ← (Slice.ofArray buf).reslice 0 n
    return (buf, Step.sent out.elems)

/-! ## Values the statements are about: transformed frames, loop buffers, numerals, scenario data -/

/-- The destination port the encapsulation looks up: 0 for ICMP, else the
big-endian 16-bit value at offsets 36 and 37. -/
def lookupPort (b : List Nat) : Nat :=
  if getprotoname (b[23]?.getD 0) = "icmp" then 0 else beUint16 (b[36]?.getD 0) (b[37]?.getD 0)

/-- The frame bytes after a successful encapsulation. -/
def stamped (config : Config) (b : List Nat) : List Nat :=
  (((b.set 10 (b[11]?.getD 0)).set 11 (b[5]?.getD 0)).set 12
    (checkRetransmission config ((b.drop 30).take 4) (b[23]?.getD 0) (lookupPort b))).set 13 0

/-- The frame bytes after a decapsulation with base address `m`. -/
def restored (m r : List Nat) : List Nat :=
  ((((writeAt (writeAt r 0 (m.take 6)) 6 (m.take 6)).set 5 (r[11]?.getD 0)).set 11
    (r[10]?.getD 0)).set 12 8).set 13 0

/-- The policy table `tcp@10.0.0.5:443 -> 2`. -/
def scenarioConfig : Config :=
  { MacBaseAddr := "02:00:00:00:00:01"
    Sessions := fun k => if k = "tcp@10.0.0.5:443" then some "2" else none }

/-- A TCP frame to 10.0.0.5 port 443, destination address ending in `BB`,
source address ending in `AA`. -/
def scenarioFrame : List Nat :=
  [0x02, 0, 0, 0, 0, 0xBB, 0x02, 0, 0, 0, 0, 0xAA, 0x08, 0x00,
   0x45, 0, 0, 40, 0, 0, 0, 0, 64, 6, 0, 0, 10, 0, 0, 1, 10, 0, 0, 5,
   0x30, 0x39, 0x01, 0xBB, 0, 0, 0, 0, 0, 0, 0, 0, 0x50, 0x02, 0xFF, 0xFF, 0, 0, 0, 0]

/-- The base hardware address `02:00:00:00:00:01`. -/
def scenarioBase : List Nat := [0x02, 0, 0, 0, 0, 0x01]

/-- The frame of the scenario after encapsulation (bytes 10..13 = AA, BB, 02,
00). -/
def scenarioTranscoded : List Nat :=
  [0x02, 0, 0, 0, 0, 0xBB, 0x02, 0, 0, 0, 0xAA, 0xBB, 0x02, 0x00,
   0x45, 0, 0, 40, 0, 0, 0, 0, 64, 6, 0, 0, 10, 0, 0, 1, 10, 0, 0, 5,
   0x30, 0x39, 0x01, 0xBB, 0, 0, 0, 0, 0, 0, 0, 0, 0x50, 0x02, 0xFF, 0xFF, 0, 0, 0, 0]

/-- A policy table that stamps a different retransmission count for the
scenario frame. -/
def scenarioConfigAlt : Config :=
  { MacBaseAddr := "02:00:00:00:00:01"
    Sessions := fun k => if k = "tcp@10.0.0.5:443" then some "7" else none }

/-- An ICMP echo frame to 10.0.0.9, with bytes 36, 37 = 0, 1. -/
def icmpFrameA : List Nat :=
  [0x02, 0, 0, 0, 0, 0xBB, 0x02, 0, 0, 0, 0, 0xAA, 0x08, 0x00,
   0x45, 0, 0, 28, 0, 0, 0, 0, 64, 1, 0, 0, 10, 0, 0, 1, 10, 0, 0, 9,
   8, 0, 0, 1, 0, 0, 0, 0]

/-- The frame `icmpFrameA` with bytes 36, 37 = 0x12, 0x34. -/
def icmpFrameB : List Nat :=
  [0x02, 0, 0, 0, 0, 0xBB, 0x02, 0, 0, 0, 0, 0xAA, 0x08, 0x00,
   0x45, 0, 0, 28, 0, 0, 0, 0, 64, 1, 0, 0, 10, 0, 0, 1, 10, 0, 0, 9,
   8, 0, 0x12, 0x34, 0, 0, 0, 0]

/-- A table with an ICMP entry for 10.0.0.9 and entries for the two port
readings of the frames. -/
def icmpConfig : Config :=
  { MacBaseAddr := "02:00:00:00:00:01"
    Sessions := fun k =>
      if k = "icmp@10.0.0.9:0" then some "3"
      else if k = "icmp@10.0.0.9:1" then some "4"
      else if k = "icmp@10.0.0.9:4660" then some "5"
      else none }

/-- The loop buffer of `recvhandle` after a datagram `d` is read into
`buf[10:]`. -/
def ingressFill (buf d : List Nat) : List Nat :=
  buf.take 10 ++ (d.take (min d.length (buf.length - 10))
    ++ ((buf.drop 10).take (buf.length - 10)).drop (min d.length (buf.length - 10)))

/-- The frame `recvhandle` writes to the tunnel for a datagram `d`. -/
def ingressFrame (m buf d : List Nat) : List Nat :=
  restored m ((ingressFill buf d).take d.length)

/-- The loop buffer of `xmithandle` after a datagram `d` is read into it. -/
def egressFill (buf d : List Nat) : List Nat :=
  d.take (min d.length buf.length) ++ buf.drop (min d.length buf.length)

/-- The all-zero loop buffer made by `make([]byte, MTU_SIZE)`. -/
def freshBuffer : List Nat := List.replicate MTU_SIZE 0

/-- The datagram the egress loop sends for the scenario frame: 44 bytes. -/
def scenarioDatagram : List Nat := scenarioTranscoded.drop 10

/-- The number a run of decimal digits denotes, continuing from `acc`. -/
def digitsVal : List Char → Nat → Nat
  | [], acc => acc
  | c :: cs, acc => digitsVal cs (acc * 10 + (c.toNat - 48))

/-- The text after an optional leading sign. -/
def unsigned : List Char → List Char
  | [] => []
  | c :: cs => if c = '-' ∨ c = '+' then cs else c :: cs

/-- An optionally signed, non-empty run of decimal digits. -/
def isDecimalInteger (l : List Char) : Bool :=
  !(unsigned l).isEmpty && (unsigned l).all Char.isDigit

/-- A non-empty run of decimal digits: the decimal text of a non-negative
integer. -/
def isNonNegativeDecimal (l : List Char) : Bool :=
  !l.isEmpty && l.all Char.isDigit

/-- A table whose entry for the scenario flow is the decimal text of 256. -/
def wideConfig : Config :=
  { MacBaseAddr := "02:00:00:00:00:01"
    Sessions := fun k => if k = "tcp@10.0.0.5:443" then some "256" else none }

/-- A table whose entry for the scenario flow is `-1`. -/
def negativeConfig : Config :=
  { MacBaseAddr := "02:00:00:00:00:01"
    Sessions := fun k => if k = "tcp@10.0.0.5:443" then some "-1" else none }

/-- A table whose entry for the scenario flow is `abc`. -/
def garbledConfig : Config :=
  { MacBaseAddr := "02:00:00:00:00:01"
    Sessions := fun k => if k = "tcp@10.0.0.5:443" then some "abc" else none }

/-! ## Slice operations inside and outside their bounds -/

theorem Slice.index_of_lt (b sp : List Nat) (i : Nat) (h : i < b.length) :
    Slice.index ⟨b, sp⟩ i = Except.ok (b[i]?.getD 0) := by
  simp [Slice.index, List.getElem?_eq_getElem h, pure, Except.pure]

theorem Slice.index_of_ge (b sp : List Nat) (i : Nat) (h : b.length ≤ i) :
    Slice.index ⟨b, sp⟩ i = Except.error Fault.indexOutOfRange := by
  simp [Slice.index, List.getElem?_eq_none h, throw, throwThe, MonadExceptOf.throw]

theorem Slice.viewIndex_of_lt (b sp : List Nat) (lo hi i : Nat) (h1 : i < hi - lo)
    (h2 : lo + i < b.length) :
    Slice.viewIndex ⟨b, sp⟩ ⟨lo, hi⟩ i = Except.ok (b[lo + i]?.getD 0) := by
  simp [Slice.viewIndex, Slice.backing, h1, List.getElem?_append_left h2,
    List.getElem?_eq_getElem h2, pure, Except.pure]

theorem Slice.slice_of_le (b sp : List Nat) (lo hi : Nat) (h1 : lo ≤ hi)
    (h2 : hi ≤ b.length) :
    Slice.slice ⟨b, sp⟩ lo hi = Except.ok ⟨lo, hi⟩ := by
  have h3 : hi ≤ b.length + sp.length := by omega
  simp [Slice.slice, Slice.cap, h1, h3, pure, Except.pure]

theorem Slice.assign_of_lt (b sp : List Nat) (i x : Nat) (h : i < b.length) :
    Slice.assign ⟨b, sp⟩ i x = Except.ok ⟨b.set i x, sp⟩ := by
  simp [Slice.assign, h, pure, Except.pure]

theorem BigEndianUint16_of_lt (b sp : List Nat) (lo hi : Nat) (h1 : lo + 2 ≤ hi)
    (h2 : lo + 1 < b.length) :
    BigEndianUint16 ⟨b, sp⟩ ⟨lo, hi⟩
      = Except.ok (beUint16 (b[lo]?.getD 0) (b[lo + 1]?.getD 0)) := by
  have e1 := Slice.viewIndex_of_lt b sp lo hi 1
    (by omega) h2
  have e0 := Slice.viewIndex_of_lt b sp lo hi 0
    (by omega) (by omega)
  simp only [Nat.add_zero] at e0
  simp [BigEndianUint16, e1, e0, bind, Except.bind, pure, Except.pure]

theorem encap_truncated (config : Config) (b sp : List Nat) (h : b.length < 14) :
    PDCPDataFromEthernetFrame config ⟨b, sp⟩ = Except.ok (⟨b, sp⟩, some errTruncated) := by
  simp [PDCPDataFromEthernetFrame, Slice.len, ETH_HEADLEN, h, pure, Except.pure]

theorem encap_notIPv4 (config : Config) (b sp : List Nat) (h : 14 ≤ b.length)
    (h2 : beUint16 (b[12]?.getD 0) (b[13]?.getD 0) ≠ 0x0800 ∨ b.length < 38) :
    PDCPDataFromEthernetFrame config ⟨b, sp⟩ = Except.ok (⟨b, sp⟩, some errNotIPv4) := by
  have hn : ¬ b.length < 14 := by omega
  have s1 := Slice.slice_of_le b sp 0 6 (by omega) (by omega)
  have s2 := Slice.slice_of_le b sp 6 12 (by omega) (by omega)
  have s3 := Slice.slice_of_le b sp 12 14 (by omega) (by omega)
  have s4 := BigEndianUint16_of_lt b sp 12 14 (by omega) (by omega)
  simp [PDCPDataFromEthernetFrame, Slice.len, ETH_HEADLEN, ETH_ADDRLEN, ETH_SRC_OFFSET,
    ETH_TYPE_OFFSET, ETH_TYPE_LEN, ETH_TYPEIP_U16, ETH_IP_HTOTLEN, hn, s1, s2, s3, s4,
    bind, Except.bind, pure, Except.pure]
  intro h3 h4
  omega

theorem encap_ok (config : Config) (b sp : List Nat) (h : 38 ≤ b.length)
    (h2 : beUint16 (b[12]?.getD 0) (b[13]?.getD 0) = 0x0800) :
    PDCPDataFromEthernetFrame config ⟨b, sp⟩ = Except.ok (⟨stamped config b, sp⟩, none) := by
  have hn : ¬ b.length < 14 := by omega
  have hm : ¬ b.length < 38 := by omega
  have s1 := Slice.slice_of_le b sp 0 6 (by omega) (by omega)
  have s2 := Slice.slice_of_le b sp 6 12 (by omega) (by omega)
  have s3 := Slice.slice_of_le b sp 12 14 (by omega) (by omega)
  have s4 := BigEndianUint16_of_lt b sp 12 14 (by omega) (by omega)
  have s5 := Slice.slice_of_le b sp 30 34 (by omega) (by omega)
  have s6 := Slice.index_of_lt b sp 23 (by omega)
  have s7 := Slice.slice_of_le b sp 36 38 (by omega) (by omega)
  have s8 := BigEndianUint16_of_lt b sp 36 38 (by omega) (by omega)
  have s9 := Slice.viewIndex_of_lt b sp 6 12 5
    (by omega) (by omega)
  have s10 := Slice.viewIndex_of_lt b sp 0 6 5
    (by omega) (by omega)
  have hv : Slice.viewBytes ⟨b, sp⟩ ⟨30, 34⟩ = (b.drop 30).take 4 := by
    simp only [Slice.viewBytes, Slice.backing]
    rw [List.drop_append_of_le_length (by omega), List.take_append_of_le_length]
    simp
    omega
  have l10 : 10 < b.length := by omega
  have l11 : 11 < b.length := by omega
  have l12 : 12 < b.length := by omega
  have l13 : 13 < b.length := by omega
  by_cases hp : getprotoname (b[23]?.getD 0) = "icmp"
  · simp [PDCPDataFromEthernetFrame, Slice.len, ETH_HEADLEN, ETH_ADDRLEN, ETH_SRC_OFFSET,
      ETH_TYPE_OFFSET, ETH_TYPE_LEN, ETH_TYPEIP_U16, ETH_IP_HTOTLEN, ETH_IPDST_OFFSET,
      ETH_IPDST_LEN, ETH_IPPROTO_OFFSET, ETH_DSTPORT_OFFSET, ETH_DSTPORT_LEN,
      ETH_PDCP_ADDR_OFFSET, ETH_PDCP_SRC_OFFSET, ETH_PDCP_DST_OFFSET, ETH_PDCP_RETR_OFFSET,
      ETH_PDCP_INTV_OFFSET, hn, hm, s1, s2, s3, s4, s5, s6, s7, s8, s9, s10, hv, h2, hp,
      Slice.assign, stamped, lookupPort, bind, Except.bind, pure, Except.pure, l10, l11,
      l12, l13]
    simpa [l12, l13] using h2
  · simp [PDCPDataFromEthernetFrame, Slice.len, ETH_HEADLEN, ETH_ADDRLEN, ETH_SRC_OFFSET,
      ETH_TYPE_OFFSET, ETH_TYPE_LEN, ETH_TYPEIP_U16, ETH_IP_HTOTLEN, ETH_IPDST_OFFSET,
      ETH_IPDST_LEN, ETH_IPPROTO_OFFSET, ETH_DSTPORT_OFFSET, ETH_DSTPORT_LEN,
      ETH_PDCP_ADDR_OFFSET, ETH_PDCP_SRC_OFFSET, ETH_PDCP_DST_OFFSET, ETH_PDCP_RETR_OFFSET,
      ETH_PDCP_INTV_OFFSET, hn, hm, s1, s2, s3, s4, s5, s6, s7, s8, s9, s10, hv, h2, hp,
      Slice.assign, stamped, lookupPort, bind, Except.bind, pure, Except.pure, l10, l11,
      l12, l13]
    simpa [l12, l13] using h2

/-! ## `copy` into a sub-slice -/

theorem length_writeAt (xs : List Nat) : ∀ (arr : List Nat) (pos : Nat),
    (writeAt arr pos xs).length = arr.length := by
  induction xs with
  | nil => intro arr pos; rfl
  | cons x xs ih => intro arr pos; simp [writeAt, ih]

theorem writeAt_append (xs : List Nat) : ∀ (arr sp : List Nat) (pos : Nat),
    pos + xs.length ≤ arr.length → writeAt (arr ++ sp) pos xs = writeAt arr pos xs ++ sp := by
  induction xs with
  | nil => intro arr sp pos _; rfl
  | cons x xs ih =>
    intro arr sp pos h
    simp only [List.length_cons] at h
    have hp : pos < arr.length := by omega
    simp only [writeAt]
    rw [List.set_append_left _ _ hp, ih]
    simp only [List.length_set]
    omega

theorem getElem?_writeAt (xs : List Nat) : ∀ (arr : List Nat) (pos i : Nat),
    pos + xs.length ≤ arr.length →
    (writeAt arr pos xs)[i]? = if pos ≤ i ∧ i < pos + xs.length then xs[i - pos]? else arr[i]? := by
  induction xs with
  | nil =>
    intro arr pos i _
    have hn : ¬ (pos ≤ i ∧ i < pos + ([] : List Nat).length) := by
      simp only [List.length_nil]; omega
    rw [if_neg hn]
    rfl
  | cons x xs ih =>
    intro arr pos i h
    simp only [List.length_cons] at h
    simp only [writeAt]
    rw [ih _ _ _ (by simp only [List.length_set]; omega)]
    by_cases h1 : pos + 1 ≤ i ∧ i < pos + 1 + xs.length
    · have h2 : pos ≤ i ∧ i < pos + (x :: xs).length := by
        simp only [List.length_cons]; omega
      rw [if_pos h1, if_pos h2]
      have : i - pos = (i - (pos + 1)) + 1 := by omega
      rw [this, List.getElem?_cons_succ]
    · rw [if_neg h1]
      by_cases h3 : i = pos
      · subst h3
        have h2 : i ≤ i ∧ i < i + (x :: xs).length := by
          simp only [List.length_cons]; omega
        rw [if_pos h2]
        simp [List.getElem?_set]
        omega
      · have h2 : ¬ (pos ≤ i ∧ i < pos + (x :: xs).length) := by
          simp only [List.length_cons]; omega
        rw [if_neg h2, List.getElem?_set]
        simp [Ne.symm h3]

theorem Slice.copyInto_of_le (b sp : List Nat) (lo hi : Nat) (src : List Nat)
    (h : hi ≤ b.length) :
    Slice.copyInto ⟨b, sp⟩ ⟨lo, hi⟩ src = ⟨writeAt b lo (src.take (hi - lo)), sp⟩ := by
  by_cases hl : lo ≤ hi
  · have hlen : lo + (src.take (hi - lo)).length ≤ b.length := by
      simp only [List.length_take]; omega
    simp only [Slice.copyInto, Slice.backing]
    rw [writeAt_append _ _ _ _ hlen]
    have e := length_writeAt (src.take (hi - lo)) b lo
    rw [List.take_append_of_le_length (by omega), List.drop_append_of_le_length (by omega)]
    rw [List.take_of_length_le (by omega), List.drop_of_length_le (by omega)]
    simp
  · have : hi - lo = 0 := by omega
    simp [Slice.copyInto, Slice.backing, this, writeAt]

theorem length_restored (m r : List Nat) : (restored m r).length = r.length := by
  simp [restored, length_writeAt]

theorem decap_ok (config : Config) (r sp m : List Nat) (h : 14 ≤ r.length) :
    PDCPDataToEthernetFrame config ⟨r, sp⟩ m = Except.ok (⟨restored m r, sp⟩, none) := by
  have s1 := Slice.index_of_lt r sp 10 (by omega)
  have s2 := Slice.index_of_lt r sp 11 (by omega)
  have s3 := Slice.slice_of_le r sp 0 6 (by omega) (by omega)
  have s4 := Slice.copyInto_of_le r sp 0 6 m (by omega)
  have e1 := length_writeAt (m.take 6) r 0
  have s5 := Slice.slice_of_le (writeAt r 0 (m.take 6)) sp 6 12
    (by omega) (by omega)
  have s6 := Slice.copyInto_of_le (writeAt r 0 (m.take 6)) sp 6 12
    m (by omega)
  have e2 := length_writeAt (m.take 6) (writeAt r 0 (m.take 6)) 6
  have l5 : 5 < r.length := by omega
  have l11 : 11 < r.length := by omega
  have l12 : 12 < r.length := by omega
  have l13 : 13 < r.length := by omega
  simp only [Nat.sub_zero, show (12 : Nat) - 6 = 6 from rfl] at s4 s6
  simp [PDCPDataToEthernetFrame, ETH_PDCP_SRC_OFFSET, ETH_PDCP_DST_OFFSET, ETH_ADDRLEN,
    ETH_SRC_OFFSET, ETH_PDCP_ADDR_OFFSET, ETH_TYPE_OFFSET, ETH_TYPEIP_U8, ETH_TYPE_OFFSET_LB,
    s1, s2, s3, s4, s5, s6, Slice.assign, e1, e2, l5, l11, l12, l13, restored,
    bind, Except.bind, pure, Except.pure]

theorem decap_panics (config : Config) (r sp m : List Nat) (h : r.length < 14) :
    PDCPDataToEthernetFrame config ⟨r, sp⟩ m = Except.error Fault.indexOutOfRange := by
  by_cases h10 : r.length ≤ 10
  · have s1 := Slice.index_of_ge r sp 10 h10
    simp [PDCPDataToEthernetFrame, ETH_PDCP_SRC_OFFSET, s1, bind, Except.bind]
  · have s1 := Slice.index_of_lt r sp 10 (by omega)
    by_cases h11 : r.length ≤ 11
    · have s2 := Slice.index_of_ge r sp 11 h11
      simp [PDCPDataToEthernetFrame, ETH_PDCP_SRC_OFFSET, ETH_PDCP_DST_OFFSET, s1, s2, bind,
        Except.bind]
    · have s2 := Slice.index_of_lt r sp 11 (by omega)
      have s3 := Slice.slice_of_le r sp 0 6 (by omega) (by omega)
      have s4 := Slice.copyInto_of_le r sp 0 6 m (by omega)
      have e1 := length_writeAt (m.take 6) r 0
      have s5 := Slice.slice_of_le (writeAt r 0 (m.take 6)) sp 6
        12 (by omega) (by omega)
      have s6 := Slice.copyInto_of_le (writeAt r 0 (m.take 6)) sp 6
        12 m (by omega)
      have e2 := length_writeAt (m.take 6) (writeAt r 0 (m.take 6)) 6
      have l5 : 5 < r.length := by omega
      have l11 : 11 < r.length := by omega
      simp only [Nat.sub_zero, show (12 : Nat) - 6 = 6 from rfl] at s4 s6
      by_cases h12 : r.length ≤ 12
      · have l12 : ¬ 12 < r.length := by omega
        simp [PDCPDataToEthernetFrame, ETH_PDCP_SRC_OFFSET, ETH_PDCP_DST_OFFSET, ETH_ADDRLEN,
          ETH_SRC_OFFSET, ETH_PDCP_ADDR_OFFSET, ETH_TYPE_OFFSET, ETH_TYPEIP_U8,
          ETH_TYPE_OFFSET_LB, s1, s2, s3, s4, s5, s6, Slice.assign, e1, e2, l5, l11, l12,
          bind, Except.bind, pure, Except.pure, throw, throwThe, MonadExceptOf.throw]
      · have l12 : 12 < r.length := by omega
        have l13 : ¬ 13 < r.length := by omega
        simp [PDCPDataToEthernetFrame, ETH_PDCP_SRC_OFFSET, ETH_PDCP_DST_OFFSET, ETH_ADDRLEN,
          ETH_SRC_OFFSET, ETH_PDCP_ADDR_OFFSET, ETH_TYPE_OFFSET, ETH_TYPEIP_U8,
          ETH_TYPE_OFFSET_LB, s1, s2, s3, s4, s5, s6, Slice.assign, e1, e2, l5, l11, l12, l13,
          bind, Except.bind, pure, Except.pure, throw, throwThe, MonadExceptOf.throw]

/-! ## Bytes of the transformed frames -/

theorem getprotoname_icmp (p : Nat) : getprotoname p = "icmp" ↔ p = 1 := by
  unfold getprotoname PROTO_ICMP PROTO_TCP PROTO_UDP
  constructor
  · intro h
    by_contra hne
    rw [if_neg hne] at h
    split_ifs at h <;> revert h <;> decide
  · intro h
    rw [if_pos h]

theorem dstIP_bytes (b : List Nat) (h : 34 ≤ b.length) :
    (b.drop 30).take 4
      = [b[30]?.getD 0, b[31]?.getD 0, b[32]?.getD 0, b[33]?.getD 0] := by
  apply List.ext_getElem?
  intro i
  rcases i with _ | _ | _ | _ | i
  · simp [List.getElem?_take, List.getElem?_drop, List.getElem?_eq_getElem (show 30 < b.length by omega)]
  · simp [List.getElem?_take, List.getElem?_drop, List.getElem?_eq_getElem (show 31 < b.length by omega)]
  · simp [List.getElem?_take, List.getElem?_drop, List.getElem?_eq_getElem (show 32 < b.length by omega)]
  · simp [List.getElem?_take, List.getElem?_drop, List.getElem?_eq_getElem (show 33 < b.length by omega)]
  · simp [List.getElem?_take, List.getElem?_drop]

theorem length_stamped (config : Config) (b : List Nat) :
    (stamped config b).length = b.length := by
  simp [stamped]

theorem getElem?_stamped (config : Config) (b : List Nat) (h : 14 ≤ b.length) (i : Nat) :
    (stamped config b)[i]? =
      if i = 13 then some 0
      else if i = 12 then
        some (checkRetransmission config ((b.drop 30).take 4) (b[23]?.getD 0) (lookupPort b))
      else if i = 11 then b[5]?
      else if i = 10 then b[11]?
      else b[i]? := by
  have l5 : 5 < b.length := by omega
  have l11 : 11 < b.length := by omega
  simp only [stamped, List.getElem?_set, List.length_set]
  by_cases h13 : i = 13
  · subst h13; simp; omega
  · by_cases h12 : i = 12
    · subst h12; simp; omega
    · by_cases h11 : i = 11
      · subst h11; simp [l5]; omega
      · by_cases h10 : i = 10
        · subst h10; simp [l11]; omega
        · simp [h13, h12, h11, h10, Ne.symm h13, Ne.symm h12, Ne.symm h11, Ne.symm h10]

theorem getElem?_restored (m r : List Nat) (h : 14 ≤ r.length) (hm : m.length = 6) (i : Nat) :
    (restored m r)[i]? =
      if i = 13 then some 0
      else if i = 12 then some 8
      else if i = 11 then r[10]?
      else if i = 5 then r[11]?
      else if 6 ≤ i ∧ i < 12 then m[i - 6]?
      else if i < 6 then m[i]?
      else r[i]? := by
  have l10 : 10 < r.length := by omega
  have l11 : 11 < r.length := by omega
  have ht : m.take 6 = m := List.take_of_length_le (by omega)
  have e1 := length_writeAt m r 0
  have e2 := length_writeAt m (writeAt r 0 m) 6
  simp only [restored, ht, List.getElem?_set, List.length_set, e1, e2]
  rw [getElem?_writeAt m _ 6 i (by omega), getElem?_writeAt m r 0 i (by omega)]
  simp only [hm, Nat.zero_le, true_and, Nat.zero_add, Nat.sub_zero]
  by_cases h13 : i = 13
  · subst h13; simp; omega
  · by_cases h12 : i = 12
    · subst h12; simp; omega
    · by_cases h11 : i = 11
      · subst h11; simp [l10]; omega
      · by_cases h5 : i = 5
        · subst h5; simp [l11]; omega
        · simp [h13, h12, h11, h5, Ne.symm h13, Ne.symm h12, Ne.symm h11, Ne.symm h5]

/-! ## Encapsulation and decapsulation -/

/-- C1: encapsulation never panics; it returns the truncated-frame error
exactly for buffers shorter than 14 bytes, the distinct not-IPv4 error exactly
for buffers of at least 14 bytes whose EtherType is not 0x0800 or that are
shorter than 38 bytes, and no error in every other case. -/
theorem C1_encapsulation_error_cases (config : Config) (b sp : List Nat) :
    errTruncated ≠ errNotIPv4 ∧
    ∃ out err, PDCPDataFromEthernetFrame config ⟨b, sp⟩ = Except.ok (out, err) ∧
      (err = some errTruncated ↔ b.length < 14) ∧
      (err = some errNotIPv4 ↔
        14 ≤ b.length ∧
          (beUint16 (b[12]?.getD 0) (b[13]?.getD 0) ≠ 0x0800 ∨ b.length < 38)) ∧
      (err = none ↔
        38 ≤ b.length ∧ beUint16 (b[12]?.getD 0) (b[13]?.getD 0) = 0x0800) := by
  have hne : errTruncated ≠ errNotIPv4 := by decide
  refine ⟨hne, ?_⟩
  by_cases h14 : b.length < 14
  · refine ⟨_, _, encap_truncated config b sp h14, ?_, ?_, ?_⟩
    · simp [h14]
    · constructor
      · intro h
        exact absurd (Option.some.inj h) hne
      · intro h
        omega
    · constructor
      · intro h
        exact absurd h (by simp)
      · intro h
        omega
  · by_cases hok : beUint16 (b[12]?.getD 0) (b[13]?.getD 0) ≠ 0x0800 ∨ b.length < 38
    · refine ⟨_, _, encap_notIPv4 config b sp (by omega) hok, ?_, ?_, ?_⟩
      · constructor
        · intro h
          exact absurd (Option.some.inj h).symm hne
        · intro h
          exact absurd h h14
      · constructor
        · intro _
          exact ⟨by omega, hok⟩
        · intro _
          rfl
      · constructor
        · intro h
          exact absurd h (by simp)
        · intro h
          rcases hok with h1 | h1
          · exact absurd h.2 h1
          · omega
    · have h38 : 38 ≤ b.length := by
        by_contra hc
        exact hok (Or.inr (by omega))
      have het : beUint16 (b[12]?.getD 0) (b[13]?.getD 0) = 0x0800 := by
        by_contra hc
        exact hok (Or.inl hc)
      refine ⟨_, _, encap_ok config b sp h38 het, ?_, ?_, ?_⟩
      · constructor
        · intro h
          exact absurd h (by simp)
        · intro h
          omega
      · constructor
        · intro h
          exact absurd h (by simp)
        · intro h
          exact absurd h.2 hok
      · constructor
        · intro _
          exact ⟨h38, het⟩
        · intro _
          rfl

/-- The four stamped bytes of an accepted frame. -/
theorem stamps_of_accepted (config : Config) (b sp : List Nat) (h : 38 ≤ b.length)
    (het : beUint16 (b[12]?.getD 0) (b[13]?.getD 0) = 0x0800) :
    ∃ out, PDCPDataFromEthernetFrame config ⟨b, sp⟩ = Except.ok (⟨out, sp⟩, none) ∧
      out[10]? = b[11]? ∧
      out[11]? = b[5]? ∧
      out[12]? = some (checkRetransmission config
        [b[30]?.getD 0, b[31]?.getD 0, b[32]?.getD 0, b[33]?.getD 0] (b[23]?.getD 0)
        (if b[23]?.getD 0 = PROTO_ICMP then 0
         else beUint16 (b[36]?.getD 0) (b[37]?.getD 0))) ∧
      out[13]? = some 0 := by
  refine ⟨stamped config b, encap_ok config b sp h het, ?_, ?_, ?_, ?_⟩
  · rw [getElem?_stamped config b (by omega)]; simp
  · rw [getElem?_stamped config b (by omega)]; simp
  · rw [getElem?_stamped config b (by omega), dstIP_bytes b (by omega)]
    simp [lookupPort, getprotoname_icmp, PROTO_ICMP]
  · rw [getElem?_stamped config b (by omega)]; simp

/-- C2: on an accepted buffer (at least 38 bytes, EtherType 0x0800)
encapsulation returns no error and leaves byte 10 = old byte 11, byte 11 = old
byte 5, byte 12 = the resolver's result for protocol byte 23, destination
address bytes 30..33 and destination port (0 for ICMP, else the big-endian
value of bytes 36..37), and byte 13 = 0. -/
theorem C2_encapsulation_stamps (config : Config) (b sp : List Nat) (h : 38 ≤ b.length)
    (het : beUint16 (b[12]?.getD 0) (b[13]?.getD 0) = 0x0800) :
    ∃ out, PDCPDataFromEthernetFrame config ⟨b, sp⟩ = Except.ok (⟨out, sp⟩, none) ∧
      out[10]? = b[11]? ∧
      out[11]? = b[5]? ∧
      out[12]? = some (checkRetransmission config
        [b[30]?.getD 0, b[31]?.getD 0, b[32]?.getD 0, b[33]?.getD 0] (b[23]?.getD 0)
        (if b[23]?.getD 0 = PROTO_ICMP then 0
         else beUint16 (b[36]?.getD 0) (b[37]?.getD 0))) ∧
      out[13]? = some 0 :=
  stamps_of_accepted config b sp h het

/-- The scenario of C2: with the table `tcp@10.0.0.5:443 -> 2`, the TCP frame
to 10.0.0.5 port 443 is accepted and its bytes 10..13 become AA, BB, 02,
00. -/
theorem C2_encapsulation_stamps_witness :
    ∃ out, PDCPDataFromEthernetFrame scenarioConfig ⟨scenarioFrame, []⟩
        = Except.ok (⟨out, []⟩, none) ∧
      out[10]? = some 0xAA ∧ out[11]? = some 0xBB ∧ out[12]? = some 2 ∧ out[13]? = some 0 := by
  obtain ⟨out, h0, h10, h11, h12, h13⟩ :=
    C2_encapsulation_stamps scenarioConfig scenarioFrame [] (by decide) (by decide)
  refine ⟨out, h0, ?_, ?_, ?_, h13⟩
  · rw [h10]; rfl
  · rw [h11]; rfl
  · rw [h12]; rfl

/-- C5: on a received buffer of at least 14 bytes and a 6-byte base address
`m`, decapsulation returns no error and no panic; the buffer keeps its length,
bytes 0..4 and 6..10 are `m[0..4]`, byte 5 is the old byte 11, byte 11 the old
byte 10, bytes 12 and 13 are 08 00, and every byte from offset 14 on is
unchanged. -/
theorem C5_decapsulation_layout (config : Config) (r sp m : List Nat) (h : 14 ≤ r.length)
    (hm : m.length = 6) :
    ∃ out, PDCPDataToEthernetFrame config ⟨r, sp⟩ m = Except.ok (⟨out, sp⟩, none) ∧
      out.length = r.length ∧
      (∀ i, i < 5 → out[i]? = m[i]?) ∧
      out[5]? = r[11]? ∧
      (∀ i, i < 5 → out[6 + i]? = m[i]?) ∧
      out[11]? = r[10]? ∧
      out[12]? = some 0x08 ∧
      out[13]? = some 0x00 ∧
      (∀ i, 14 ≤ i → out[i]? = r[i]?) := by
  refine ⟨restored m r, decap_ok config r sp m h, length_restored m r, ?_, ?_, ?_, ?_, ?_, ?_, ?_⟩
  · intro i hi
    rw [getElem?_restored m r h hm]
    have h1 : i ≠ 13 := by omega
    have h2 : i ≠ 12 := by omega
    have h3 : i ≠ 11 := by omega
    have h4 : i ≠ 5 := by omega
    have h5 : ¬ (6 ≤ i ∧ i < 12) := by omega
    have h6 : i < 6 := by omega
    simp [h1, h2, h3, h4, h5, h6]
  · rw [getElem?_restored m r h hm]; simp
  · intro i hi
    rw [getElem?_restored m r h hm]
    have h1 : 6 + i ≠ 13 := by omega
    have h2 : 6 + i ≠ 12 := by omega
    have h3 : 6 + i ≠ 11 := by omega
    have h4 : 6 + i ≠ 5 := by omega
    have h5 : 6 ≤ 6 + i ∧ 6 + i < 12 := by omega
    simp only [if_neg h1, if_neg h2, if_neg h3, if_neg h4, if_pos h5, Nat.add_sub_cancel_left]
  · rw [getElem?_restored m r h hm]; simp
  · rw [getElem?_restored m r h hm]; simp
  · rw [getElem?_restored m r h hm]; simp
  · intro i hi
    rw [getElem?_restored m r h hm]
    have h1 : i ≠ 13 := by omega
    have h2 : i ≠ 12 := by omega
    have h3 : i ≠ 11 := by omega
    have h4 : i ≠ 5 := by omega
    have h5 : ¬ (6 ≤ i ∧ i < 12) := by omega
    have h6 : ¬ i < 6 := by omega
    simp [h1, h2, h3, h4, h5, h6]

/-- The scenario of C5: the transcoded buffer with bytes 10, 11 = AA, BB,
decapsulated with base `02:00:00:00:00:01`, starts with destination
`02:00:00:00:00:BB`, source `02:00:00:00:00:AA` and EtherType `08 00`. -/
theorem C5_decapsulation_layout_witness :
    ∃ out, PDCPDataToEthernetFrame scenarioConfig ⟨scenarioTranscoded, []⟩ scenarioBase
        = Except.ok (⟨out, []⟩, none) ∧
      out.length = scenarioTranscoded.length ∧
      out.take 14 = [0x02, 0, 0, 0, 0, 0xBB, 0x02, 0, 0, 0, 0, 0xAA, 0x08, 0x00] ∧
      (∀ i, 14 ≤ i → out[i]? = scenarioTranscoded[i]?) := by
  obtain ⟨out, h0, hl, _, _, _, _, _, _, hrest⟩ :=
    C5_decapsulation_layout scenarioConfig scenarioTranscoded [] scenarioBase
      (by decide) (by decide)
  refine ⟨out, h0, hl, ?_, hrest⟩
  have e : PDCPDataToEthernetFrame scenarioConfig ⟨scenarioTranscoded, []⟩ scenarioBase
      = Except.ok (⟨restored scenarioBase scenarioTranscoded, []⟩, none) :=
    decap_ok scenarioConfig scenarioTranscoded [] scenarioBase (by decide)
  rw [e] at h0
  injection h0 with h0
  injection h0 with h0 _
  injection h0 with h0 _
  rw [← h0]
  decide

/-- Decapsulation does not read byte 12: overwriting it before the call
changes nothing. -/
theorem restored_set_retransmit (m r : List Nat) (h : 14 ≤ r.length) (hm : m.length = 6)
    (x : Nat) : restored m (r.set 12 x) = restored m r := by
  apply List.ext_getElem?
  intro i
  rw [getElem?_restored m _ (by rw [List.length_set]; exact h) hm, getElem?_restored m r h hm]
  simp only [List.getElem?_set]
  by_cases h13 : i = 13
  · simp [h13]
  · by_cases h12 : i = 12
    · simp [h12]
    · have n12 : ¬ 12 = i := fun e => h12 e.symm
      simp [h13, h12, n12]

/-- C6: for an accepted frame `F` and a 6-byte base address, decapsulating the
encapsulated frame gives a buffer `G` of the same length with `G[11] = F[11]`,
`G[5] = F[5]`, `G[12..13] = 08 00` and `G[i] = F[i]` from offset 14 on; any
other policy table, and any other count at offset 12 of the encapsulated
frame, gives the same `G`. -/
theorem C6_round_trip (config : Config) (F sp m : List Nat) (h : 38 ≤ F.length)
    (het : beUint16 (F[12]?.getD 0) (F[13]?.getD 0) = 0x0800) (hm : m.length = 6) :
    ∃ E G, PDCPDataFromEthernetFrame config ⟨F, sp⟩ = Except.ok (⟨E, sp⟩, none) ∧
      PDCPDataToEthernetFrame config ⟨E, sp⟩ m = Except.ok (⟨G, sp⟩, none) ∧
      G.length = F.length ∧
      G[11]? = F[11]? ∧
      G[5]? = F[5]? ∧
      G[12]? = some 0x08 ∧
      G[13]? = some 0x00 ∧
      (∀ i, 14 ≤ i → G[i]? = F[i]?) ∧
      (∀ config2 : Config, ∃ E2,
        PDCPDataFromEthernetFrame config2 ⟨F, sp⟩ = Except.ok (⟨E2, sp⟩, none) ∧
        PDCPDataToEthernetFrame config2 ⟨E2, sp⟩ m = Except.ok (⟨G, sp⟩, none)) ∧
      (∀ count : Nat,
        PDCPDataToEthernetFrame config ⟨E.set 12 count, sp⟩ m = Except.ok (⟨G, sp⟩, none)) := by
  have hE : ∀ c : Config, 14 ≤ (stamped c F).length := by
    intro c; rw [length_stamped]; omega
  have key : ∀ (c : Config) (i : Nat), (restored m (stamped c F))[i]? =
      if i = 13 then some 0
      else if i = 12 then some 8
      else if i = 11 then F[11]?
      else if i = 5 then F[5]?
      else if 6 ≤ i ∧ i < 12 then m[i - 6]?
      else if i < 6 then m[i]?
      else F[i]? := by
    intro c i
    rw [getElem?_restored m _ (hE c) hm, getElem?_stamped c F (by omega),
      getElem?_stamped c F (by omega), getElem?_stamped c F (by omega)]
    by_cases h13 : i = 13
    · simp [h13]
    · by_cases h12 : i = 12
      · simp [h12]
      · by_cases h11 : i = 11
        · simp [h11]
        · by_cases h5 : i = 5
          · simp [h5]
          · by_cases h6 : 6 ≤ i ∧ i < 12
            · simp [h13, h12, h11, h5, h6]
            · by_cases h7 : i < 6
              · simp [h13, h12, h11, h5, h6, h7]
              · have h10 : i ≠ 10 := by omega
                simp [h13, h12, h11, h5, h6, h7, h10]
  refine ⟨stamped config F, restored m (stamped config F), encap_ok config F sp h het,
    decap_ok config _ sp m (hE config), ?_, ?_, ?_, ?_, ?_, ?_, ?_, ?_⟩
  · rw [length_restored, length_stamped]
  · rw [key]; simp
  · rw [key]; simp
  · rw [key]; simp
  · rw [key]; simp
  · intro i hi
    rw [key]
    have h1 : i ≠ 13 := by omega
    have h2 : i ≠ 12 := by omega
    have h3 : i ≠ 11 := by omega
    have h4 : i ≠ 5 := by omega
    have h5 : ¬ (6 ≤ i ∧ i < 12) := by omega
    have h6 : ¬ i < 6 := by omega
    simp [h1, h2, h3, h4, h5, h6]
  · intro config2
    refine ⟨stamped config2 F, encap_ok config2 F sp h het, ?_⟩
    have e : restored m (stamped config2 F) = restored m (stamped config F) := by
      apply List.ext_getElem?
      intro i
      rw [key, key]
    rw [← e]
    exact decap_ok config2 _ sp m (hE config2)
  · intro count
    rw [← restored_set_retransmit m (stamped config F) (hE config) hm count]
    exact decap_ok config _ sp m (by rw [List.length_set]; exact hE config)

/-- The round trip of C6 on the scenario frame; the table with count 7 gives
the same decapsulated frame as the table with count 2. -/
theorem C6_round_trip_witness :
    ∃ E G, PDCPDataFromEthernetFrame scenarioConfig ⟨scenarioFrame, []⟩
        = Except.ok (⟨E, []⟩, none) ∧
      PDCPDataToEthernetFrame scenarioConfig ⟨E, []⟩ scenarioBase = Except.ok (⟨G, []⟩, none) ∧
      G.length = scenarioFrame.length ∧
      G[11]? = some 0xAA ∧
      G[5]? = some 0xBB ∧
      G[12]? = some 0x08 ∧
      G[13]? = some 0x00 ∧
      (∀ i, 14 ≤ i → G[i]? = scenarioFrame[i]?) ∧
      (∃ E2, PDCPDataFromEthernetFrame scenarioConfigAlt ⟨scenarioFrame, []⟩
          = Except.ok (⟨E2, []⟩, none) ∧
        PDCPDataToEthernetFrame scenarioConfigAlt ⟨E2, []⟩ scenarioBase
          = Except.ok (⟨G, []⟩, none)) ∧
      PDCPDataToEthernetFrame scenarioConfig ⟨E.set 12 255, []⟩ scenarioBase
        = Except.ok (⟨G, []⟩, none) := by
  obtain ⟨E, G, h1, h2, h3, h4, h5, h6, h7, h8, h9, h10⟩ :=
    C6_round_trip scenarioConfig scenarioFrame [] scenarioBase (by decide) (by decide)
      (by decide)
  exact ⟨E, G, h1, h2, h3, h4, h5, h6, h7, h8, h9 scenarioConfigAlt, h10 255⟩

/-- The resolver's lookup for an ICMP destination is the table entry under
`icmp@<address>:0`. -/
theorem checkRetransmission_icmp (config : Config) (dst : List Nat) :
    checkRetransmission config dst 1 0 =
      match config.Sessions ("icmp@" ++ ipString dst ++ ":0") with
      | some val => uint8 (Atoi val).1
      | none => 0 := by
  have e : sessionKey (getprotoname 1) dst 0 = "icmp@" ++ ipString dst ++ ":0" := by
    have e1 : getprotoname 1 = "icmp" := by decide
    have e2 : toString (0 : Nat) = "0" := by decide
    have e3 : "icmp" ++ "@" = "icmp@" := by decide
    have e4 : ":" ++ "0" = ":0" := by decide
    simp only [sessionKey, e1, e2, e3, String.append_assoc, e4]
  simp only [checkRetransmission, e]

/-- C9: two accepted ICMP frames (protocol byte 1) that agree everywhere
except at offsets 36 and 37 get the same retransmission count at offset 12, and
that count is the resolver's result for the key `icmp@<destination>:0`. -/
theorem C9_icmp_port_independence (config : Config) (F1 F2 sp1 sp2 : List Nat)
    (h1 : 38 ≤ F1.length) (het1 : beUint16 (F1[12]?.getD 0) (F1[13]?.getD 0) = 0x0800)
    (h2 : 38 ≤ F2.length) (het2 : beUint16 (F2[12]?.getD 0) (F2[13]?.getD 0) = 0x0800)
    (hp1 : F1[23]? = some 1) (hp2 : F2[23]? = some 1)
    (hagree : ∀ i, i ≠ 36 → i ≠ 37 → F1[i]? = F2[i]?) :
    ∃ E1 E2, PDCPDataFromEthernetFrame config ⟨F1, sp1⟩ = Except.ok (⟨E1, sp1⟩, none) ∧
      PDCPDataFromEthernetFrame config ⟨F2, sp2⟩ = Except.ok (⟨E2, sp2⟩, none) ∧
      E1[12]? = E2[12]? ∧
      E1[12]? = some
        (match config.Sessions
            ("icmp@" ++ ipString [F1[30]?.getD 0, F1[31]?.getD 0, F1[32]?.getD 0,
              F1[33]?.getD 0] ++ ":0") with
          | some val => uint8 (Atoi val).1
          | none => 0) := by
  obtain ⟨E1, e1, -, -, c1, -⟩ := stamps_of_accepted config F1 sp1 h1 het1
  obtain ⟨E2, e2, -, -, c2, -⟩ := stamps_of_accepted config F2 sp2 h2 het2
  have p1 : F1[23]?.getD 0 = 1 := by rw [hp1]; rfl
  have p2 : F2[23]?.getD 0 = 1 := by rw [hp2]; rfl
  simp only [p1, p2, PROTO_ICMP, if_true] at c1 c2
  rw [← hagree 30 (by omega) (by omega), ← hagree 31 (by omega) (by omega),
    ← hagree 32 (by omega) (by omega), ← hagree 33 (by omega) (by omega)] at c2
  refine ⟨E1, E2, e1, e2, ?_, ?_⟩
  · rw [c1, c2]
  · rw [c1, checkRetransmission_icmp]

theorem icmpFrames_agree : ∀ i, i ≠ 36 → i ≠ 37 → icmpFrameA[i]? = icmpFrameB[i]? := by
  intro i h36 h37
  by_cases h : i < 42
  · interval_cases i <;> first | rfl | exact absurd rfl h36 | exact absurd rfl h37
  · have ha : icmpFrameA.length ≤ i := by
      have : icmpFrameA.length = 42 := by decide
      omega
    have hb : icmpFrameB.length ≤ i := by
      have : icmpFrameB.length = 42 := by decide
      omega
    rw [List.getElem?_eq_none ha, List.getElem?_eq_none hb]

/-- C9 on two ICMP frames that differ at offsets 36 and 37: both get the count
3 of the entry `icmp@10.0.0.9:0`. -/
theorem C9_icmp_port_independence_witness :
    ∃ E1 E2, PDCPDataFromEthernetFrame icmpConfig ⟨icmpFrameA, []⟩
        = Except.ok (⟨E1, []⟩, none) ∧
      PDCPDataFromEthernetFrame icmpConfig ⟨icmpFrameB, []⟩ = Except.ok (⟨E2, []⟩, none) ∧
      E1[12]? = E2[12]? ∧
      E1[12]? = some 3 :=
  C9_icmp_port_independence icmpConfig icmpFrameA icmpFrameB [] [] (by decide) (by decide)
    (by decide) (by decide) (by decide) (by decide) icmpFrames_agree

/-- C10: encapsulation never panics and, whether it returns an error or not,
the buffer keeps its length (and its spare capacity) and every byte at an index
other than 10, 11, 12 and 13. -/
theorem C10_encapsulation_frame (config : Config) (b sp : List Nat) :
    ∃ out err, PDCPDataFromEthernetFrame config ⟨b, sp⟩ = Except.ok (⟨out, sp⟩, err) ∧
      out.length = b.length ∧
      (∀ i, i ≠ 10 → i ≠ 11 → i ≠ 12 → i ≠ 13 → out[i]? = b[i]?) := by
  by_cases h14 : b.length < 14
  · exact ⟨b, _, encap_truncated config b sp h14, rfl, fun _ _ _ _ _ => rfl⟩
  · by_cases hok : beUint16 (b[12]?.getD 0) (b[13]?.getD 0) ≠ 0x0800 ∨ b.length < 38
    · exact ⟨b, _, encap_notIPv4 config b sp (by omega) hok, rfl, fun _ _ _ _ _ => rfl⟩
    · have h38 : 38 ≤ b.length := by
        by_contra hc
        exact hok (Or.inr (by omega))
      have het : beUint16 (b[12]?.getD 0) (b[13]?.getD 0) = 0x0800 := by
        by_contra hc
        exact hok (Or.inl hc)
      refine ⟨stamped config b, none, encap_ok config b sp h38 het, length_stamped config b, ?_⟩
      intro i h10 h11 h12 h13
      rw [getElem?_stamped config b (by omega)]
      simp [h10, h11, h12, h13]

/-! ## The relay loops -/

theorem reslice_ofArray (buf : List Nat) (lo hi : Nat) (h1 : lo ≤ hi) (h2 : hi ≤ buf.length) :
    (Slice.ofArray buf).reslice lo hi
      = Except.ok ⟨(buf.drop lo).take (hi - lo), buf.drop hi⟩ := by
  simp [Slice.reslice, Slice.ofArray, Slice.cap, Slice.backing, h1, h2, pure, Except.pure]

theorem reslice_ofArray_error (buf : List Nat) (lo hi : Nat) (h : ¬ (lo ≤ hi ∧ hi ≤ buf.length)) :
    (Slice.ofArray buf).reslice lo hi = Except.error Fault.sliceBoundsOutOfRange := by
  simp only [Slice.reslice, Slice.ofArray, Slice.cap, List.length_nil, Nat.add_zero]
  rw [if_neg h]
  rfl

theorem length_ingressFill (buf d : List Nat) (h : 10 ≤ buf.length) :
    (ingressFill buf d).length = buf.length := by
  simp only [ingressFill, List.length_append, List.length_take, List.length_drop]
  omega

theorem recvhandle_unfold (config : Config) (m buf d : List Nat) (hb : buf.length = 1514)
    (hd : d.length ≤ 1504) :
    recvhandle config m buf (some d) =
      (PDCPDataToEthernetFrame config
        ⟨(ingressFill buf d).take d.length, (ingressFill buf d).drop d.length⟩ m).bind
        (fun res =>
          if res.2.isSome = true then Except.ok (res.1.backing, Step.dropped)
          else ((Slice.ofArray res.1.backing).reslice 0 d.length).bind
            (fun out => Except.ok (res.1.backing, Step.sent out.elems))) := by
  have hn : min d.length (buf.length - 10) = d.length := by omega
  have hw := reslice_ofArray buf 10 buf.length (by omega) (le_refl _)
  have hl := length_ingressFill buf d (by omega)
  have hf := reslice_ofArray (ingressFill buf d) 0 d.length (by omega) (by omega)
  simp only [List.drop_zero, Nat.sub_zero] at hf
  have hnot : ¬ d.length > 1504 := by omega
  unfold recvhandle
  rw [hw]
  simp only [bind, Except.bind, Slice.len, List.length_take, List.length_drop, pure,
    Except.pure]
  have e : min (buf.length - 10) (buf.length - 10) = buf.length - 10 := by omega
  rw [e, hn]
  simp only [hnot, if_false]
  have e2 : buf.take 10 ++ (d.take d.length
      ++ ((buf.drop 10).take (buf.length - 10)).drop d.length) = ingressFill buf d := by
    simp only [ingressFill, hn]
  rw [e2, hf]

theorem recvhandle_short (config : Config) (m buf d : List Nat) (hb : buf.length = 1514)
    (hd : d.length < 14) :
    recvhandle config m buf (some d) = Except.error Fault.indexOutOfRange := by
  rw [recvhandle_unfold config m buf d hb (by omega)]
  have hl := length_ingressFill buf d (by omega)
  rw [decap_panics config _ _ m (by simp only [List.length_take]; omega)]
  rfl

theorem recvhandle_long (config : Config) (m buf d : List Nat) (hb : buf.length = 1514)
    (hd : 14 ≤ d.length) (hd2 : d.length ≤ 1504) :
    recvhandle config m buf (some d) =
      Except.ok (ingressFrame m buf d ++ (ingressFill buf d).drop d.length,
        Step.sent (ingressFrame m buf d)) := by
  rw [recvhandle_unfold config m buf d hb hd2]
  have hl := length_ingressFill buf d (by omega)
  have ht : ((ingressFill buf d).take d.length).length = d.length := by
    simp only [List.length_take]; omega
  rw [decap_ok config _ _ m (by omega)]
  have hr : (restored m ((ingressFill buf d).take d.length)).length = d.length := by
    rw [length_restored, ht]
  simp only [Except.bind, Option.isSome_none, Bool.false_eq_true, if_false, Slice.backing]
  rw [reslice_ofArray _ 0 d.length (by omega)
    (by simp only [List.length_append, hr]; omega)]
  simp only [Except.bind, List.drop_zero, Nat.sub_zero, ingressFrame]
  have e : (restored m ((ingressFill buf d).take d.length)
      ++ (ingressFill buf d).drop d.length).take d.length
      = restored m ((ingressFill buf d).take d.length) := by
    rw [List.take_append_of_le_length (le_of_eq hr.symm)]
    exact List.take_of_length_le (le_of_eq hr)
  rw [e]

theorem getElem?_ingressFill (buf d : List Nat) (hb : buf.length = 1514)
    (hd : d.length ≤ 1504) (i : Nat) (hi : i < d.length) (h10 : 10 ≤ i) :
    (ingressFill buf d)[i]? = d[i - 10]? := by
  have hn : min d.length (buf.length - 10) = d.length := by omega
  simp only [ingressFill, hn, List.take_length]
  rw [List.getElem?_append_right (by simp only [List.length_take]; omega)]
  have e : (buf.take 10).length = 10 := by simp only [List.length_take]; omega
  rw [e, List.getElem?_append_left (by omega)]

theorem xmithandle_unfold (config : Config) (buf d : List Nat) :
    xmithandle config buf (some d) =
      (PDCPDataFromEthernetFrame config
        ⟨(egressFill buf d).take (min d.length buf.length),
          (egressFill buf d).drop (min d.length buf.length)⟩).bind
        (fun res =>
          if res.2.isSome = true then Except.ok (res.1.backing, Step.dropped)
          else ((Slice.ofArray res.1.backing).reslice 10 (min d.length buf.length)).bind
            (fun out => Except.ok (res.1.backing, Step.sent out.elems))) := by
  have hl : (egressFill buf d).length = buf.length := by
    simp only [egressFill, List.length_append, List.length_take, List.length_drop]
    omega
  have hf := reslice_ofArray (egressFill buf d) 0 (min d.length buf.length) (by omega)
    (by omega)
  simp only [List.drop_zero, Nat.sub_zero] at hf
  unfold xmithandle
  simp only [bind, Except.bind, pure, Except.pure]
  have e2 : d.take (min d.length buf.length) ++ buf.drop (min d.length buf.length)
      = egressFill buf d := rfl
  rw [e2, hf]

/-- The egress loop body never panics: every iteration ends in a drop or in
one forwarded datagram. -/
theorem xmithandle_total (config : Config) (buf : List Nat) (rd : Option (List Nat)) :
    ∃ buf2 st, xmithandle config buf rd = Except.ok (buf2, st) := by
  cases rd with
  | none => exact ⟨buf, Step.dropped, rfl⟩
  | some d =>
    rw [xmithandle_unfold]
    have hl : (egressFill buf d).length = buf.length := by
      simp only [egressFill, List.length_append, List.length_take, List.length_drop]
      omega
    generalize hb : (egressFill buf d).take (min d.length buf.length) = b
    generalize (egressFill buf d).drop (min d.length buf.length) = sp
    have hbl : b.length = min d.length buf.length := by
      rw [← hb, List.length_take]; omega
    by_cases h14 : b.length < 14
    · rw [encap_truncated config b sp h14]
      exact ⟨_, _, rfl⟩
    · by_cases hok : beUint16 (b[12]?.getD 0) (b[13]?.getD 0) ≠ 0x0800 ∨ b.length < 38
      · rw [encap_notIPv4 config b sp (by omega) hok]
        exact ⟨_, _, rfl⟩
      · have h38 : 38 ≤ b.length := by
          by_contra hc
          exact hok (Or.inr (by omega))
        have het : beUint16 (b[12]?.getD 0) (b[13]?.getD 0) = 0x0800 := by
          by_contra hc
          exact hok (Or.inl hc)
        rw [encap_ok config b sp h38 het]
        simp only [Except.bind, Option.isSome_none, Bool.false_eq_true, if_false,
          Slice.backing]
        rw [reslice_ofArray _ 10 (min d.length buf.length) (by omega)
          (by simp only [List.length_append, length_stamped]; omega)]
        exact ⟨_, _, rfl⟩

/-- The ingress loop body does not panic on a datagram of at least 14
bytes. -/
theorem recvhandle_total_of_long (config : Config) (m buf d : List Nat)
    (hb : buf.length = 1514) (hd : 14 ≤ d.length) (hd2 : d.length ≤ 1504) :
    ∃ buf2 out, recvhandle config m buf (some d) = Except.ok (buf2, Step.sent out) ∧
      out.length = d.length :=
  ⟨_, _, recvhandle_long config m buf d hb hd hd2, by
    have hl := length_ingressFill buf d (by omega)
    simp only [ingressFrame, length_restored, List.length_take]
    omega⟩

theorem getElem?_restored_of_ge (m r : List Nat) (h : 14 ≤ r.length) (i : Nat)
    (hi : 14 ≤ i) : (restored m r)[i]? = r[i]? := by
  have hl : (m.take 6).length ≤ 6 := by simp only [List.length_take]; omega
  have e1 := length_writeAt (m.take 6) r 0
  simp only [restored, List.getElem?_set, List.length_set]
  rw [getElem?_writeAt (m.take 6) _ 6 i (by omega), getElem?_writeAt (m.take 6) r 0 i (by omega)]
  have h1 : ¬ (6 ≤ i ∧ i < 6 + (m.take 6).length) := by omega
  have h2 : ¬ (0 ≤ i ∧ i < 0 + (m.take 6).length) := by omega
  have n13 : ¬ 13 = i := by omega
  have n12 : ¬ 12 = i := by omega
  have n11 : ¬ 11 = i := by omega
  have n5 : ¬ 5 = i := by omega
  simp only [if_neg h1, if_neg h2, if_neg n13, if_neg n12, if_neg n11, if_neg n5]

theorem length_freshBuffer : freshBuffer.length = MTU_SIZE := by
  simp [freshBuffer]

/-- C7 (the code departs from the claim): on a datagram shorter than 14 bytes
one iteration of the ingress loop body panics with an index out of range, for
every policy table, base address and content of the 1514-byte loop buffer. -/
theorem C7_ingress_short_datagram_panics (config : Config) (m buf d : List Nat)
    (hb : buf.length = MTU_SIZE) (hd : d.length < ETH_HEADLEN) :
    recvhandle config m buf (some d) = Except.error Fault.indexOutOfRange :=
  recvhandle_short config m buf d hb hd

/-- The empty datagram makes the ingress loop body panic. -/
theorem C7_ingress_short_datagram_panics_witness :
    recvhandle scenarioConfig scenarioBase freshBuffer (some [])
      = Except.error Fault.indexOutOfRange :=
  C7_ingress_short_datagram_panics scenarioConfig scenarioBase freshBuffer []
    length_freshBuffer (by decide)

/-- C8 (the code departs from the claim): for a datagram `d` of 14 to 1504
bytes one iteration of the ingress loop body sends a frame of `len(d)` bytes,
not `len(d) + 10`: its bytes from offset 14 on are `d[4..len(d)-11]`, so the
last 10 bytes of `d` are not sent. -/
theorem C8_ingress_sends_truncated_frame (config : Config) (m buf d : List Nat)
    (hb : buf.length = MTU_SIZE) (hd : ETH_HEADLEN ≤ d.length) (hd2 : d.length ≤ 1504) :
    ∃ buf2 out, recvhandle config m buf (some d) = Except.ok (buf2, Step.sent out) ∧
      out.length = d.length ∧
      out.length ≠ d.length + 10 ∧
      (∀ i, 14 ≤ i → i < d.length → out[i]? = d[i - 10]?) := by
  have hb2 : buf.length = 1514 := hb
  have hd3 : 14 ≤ d.length := hd
  have hl := length_ingressFill buf d (by omega)
  have hlen : (ingressFrame m buf d).length = d.length := by
    simp only [ingressFrame, length_restored, List.length_take]
    omega
  refine ⟨_, _, recvhandle_long config m buf d hb2 hd3 hd2, hlen, by omega, ?_⟩
  intro i h14 hi
  have ht : 14 ≤ ((ingressFill buf d).take d.length).length := by
    simp only [List.length_take]; omega
  rw [ingressFrame, getElem?_restored_of_ge m _ ht i h14, List.getElem?_take_of_lt hi,
    getElem?_ingressFill buf d hb2 hd2 i hi (by omega)]

/-- On the 44-byte datagram of the scenario the ingress loop sends 44 bytes,
not the 54 bytes of the original frame. -/
theorem C8_ingress_sends_truncated_frame_witness :
    ∃ buf2 out, recvhandle scenarioConfig scenarioBase freshBuffer (some scenarioDatagram)
        = Except.ok (buf2, Step.sent out) ∧
      out.length = 44 ∧
      out.length ≠ 54 ∧
      (∀ i, 14 ≤ i → i < 44 → out[i]? = scenarioDatagram[i - 10]?) :=
  C8_ingress_sends_truncated_frame scenarioConfig scenarioBase freshBuffer scenarioDatagram
    length_freshBuffer (by decide) (by decide)

/-! ## `strconv.Atoi` on decimal numerals -/

theorem digitsVal_append (xs ys : List Char) : ∀ acc : Nat,
    digitsVal (xs ++ ys) acc = digitsVal ys (digitsVal xs acc) := by
  induction xs with
  | nil => intro acc; rfl
  | cons x xs ih =>
    intro acc
    show digitsVal (xs ++ ys) (acc * 10 + (x.toNat - 48)) = _
    rw [ih]
    rfl

theorem le_digitsVal (cs : List Char) : ∀ acc : Nat, acc ≤ digitsVal cs acc := by
  induction cs with
  | nil => intro acc; exact le_refl _
  | cons c cs ih =>
    intro acc
    simp only [digitsVal]
    have := ih (acc * 10 + (c.toNat - 48))
    omega

theorem digitChar_isDigit (k : Nat) (h : k < 10) : (Nat.digitChar k).isDigit = true := by
  interval_cases k <;> decide

theorem digitChar_toNat (k : Nat) (h : k < 10) : (Nat.digitChar k).toNat - 48 = k := by
  interval_cases k <;> decide

theorem toDigitsCore_numeral (fuel : Nat) : ∀ (n : Nat) (ds : List Char), n < fuel →
    ∃ cs, Nat.toDigitsCore 10 fuel n ds = cs ++ ds ∧ cs ≠ [] ∧
      (∀ c ∈ cs, c.isDigit = true) ∧ digitsVal cs 0 = n := by
  induction fuel with
  | zero => intro n ds h; omega
  | succ fuel ih =>
    intro n ds h
    have hd := digitChar_isDigit (n % 10) (Nat.mod_lt _ (by decide))
    have hv := digitChar_toNat (n % 10) (Nat.mod_lt _ (by decide))
    by_cases h0 : n / 10 = 0
    · refine ⟨[Nat.digitChar (n % 10)], ?_, by simp, ?_, ?_⟩
      · simp [Nat.toDigitsCore, h0]
      · intro c hc
        rw [List.mem_singleton] at hc
        rw [hc]; exact hd
      · simp only [digitsVal, hv]
        omega
    · obtain ⟨cs, e, _, hall, hval⟩ := ih (n / 10) (Nat.digitChar (n % 10) :: ds) (by omega)
      refine ⟨cs ++ [Nat.digitChar (n % 10)], ?_, by simp, ?_, ?_⟩
      · simp [Nat.toDigitsCore, h0, e]
      · intro c hc
        rw [List.mem_append, List.mem_singleton] at hc
        rcases hc with hc | hc
        · exact hall c hc
        · rw [hc]; exact hd
      · rw [digitsVal_append, hval]
        simp only [digitsVal, hv]
        omega

theorem repr_numeral (v : Nat) :
    ∃ c cs, (toString v).data = c :: cs ∧ (∀ x ∈ c :: cs, x.isDigit = true) ∧
      digitsVal (c :: cs) 0 = v := by
  obtain ⟨cs, e, hne, hall, hval⟩ := toDigitsCore_numeral (v + 1) v [] (by omega)
  rw [List.append_nil] at e
  have hd : (toString v).data = cs := by
    show (Nat.repr v).data = cs
    simp only [Nat.repr, Nat.toDigits, e, List.asString]
  cases cs with
  | nil => exact absurd rfl hne
  | cons c cs => exact ⟨c, cs, hd, hall, hval⟩

theorem parseUintLoop_numeral (cs : List Char) : ∀ acc : Nat,
    (∀ c ∈ cs, c.isDigit = true) → digitsVal cs acc ≤ maxUint64 →
    parseUintLoop cs acc = (digitsVal cs acc, none) := by
  induction cs with
  | nil => intro acc _ _; rfl
  | cons c cs ih =>
    intro acc hall hle
    have hc : c.isDigit = true := hall c (List.mem_cons_self _ _)
    have hrest : ∀ x ∈ cs, x.isDigit = true := fun x hx => hall x (List.mem_cons_of_mem _ hx)
    simp only [digitsVal] at hle
    have hmono := le_digitsVal cs (acc * 10 + (c.toNat - 48))
    have h1 : ¬ acc ≥ maxUint64 / 10 + 1 := by
      have : maxUint64 = 18446744073709551615 := by decide
      omega
    have h2 : ¬ acc * 10 + (c.toNat - 48) > maxUint64 := by omega
    simp only [parseUintLoop, hc, if_true, h1, if_false, h2, digitsVal]
    exact ih _ hrest hle

theorem atoiFastLoop_numeral (cs : List Char) : ∀ acc : Nat,
    (∀ c ∈ cs, c.isDigit = true) →
    atoiFastLoop cs (acc : Int) = (((digitsVal cs acc : Nat) : Int), none) := by
  induction cs with
  | nil => intro acc _; rfl
  | cons c cs ih =>
    intro acc hall
    have hc : c.isDigit = true := hall c (List.mem_cons_self _ _)
    have hrest : ∀ x ∈ cs, x.isDigit = true := fun x hx => hall x (List.mem_cons_of_mem _ hx)
    simp only [atoiFastLoop, hc, if_true, digitsVal]
    have e : (acc : Int) * 10 + ((c.toNat - 48 : Nat) : Int)
        = ((acc * 10 + (c.toNat - 48) : Nat) : Int) := by
      push_cast
      rfl
    rw [e]
    exact ih _ hrest

theorem isDigit_ne_sign (c : Char) (h : c.isDigit = true) : c ≠ '-' ∧ c ≠ '+' := by
  constructor
  · intro e; rw [e] at h; exact absurd h (by decide)
  · intro e; rw [e] at h; exact absurd h (by decide)

/-- `Atoi` reads the decimal text of every `v < 2^63` back as `v`. -/
theorem Atoi_toString (v : Nat) (hv : v < 2 ^ 63) : (Atoi (toString v)).1 = (v : Int) := by
  obtain ⟨c, cs, hd, hall, hval⟩ := repr_numeral v
  have hc := isDigit_ne_sign c (hall c (List.mem_cons_self _ _))
  have hsign : ¬ (c = '-' ∨ c = '+') := by
    intro h; rcases h with h | h
    · exact hc.1 h
    · exact hc.2 h
  have hsign2 : ¬ (c = '+' ∨ c = '-') := by
    intro h; rcases h with h | h
    · exact hc.2 h
    · exact hc.1 h
  unfold Atoi
  split
  · rw [hd]
    simp only [hsign, if_false]
    have hf := atoiFastLoop_numeral (c :: cs) 0 hall
    simp only [Nat.cast_zero] at hf
    rw [hf, hval]
    simp [hc.1]
  · rw [hd]
    have hm : maxUint64 = 18446744073709551615 := by decide
    have hp := parseUintLoop_numeral (c :: cs) 0 hall (by rw [hval, hm]; omega)
    rw [hval] at hp
    simp only [ParseInt, hsign2, if_false, ParseUint]
    have hne : ¬ (c :: cs = []) := by simp
    simp only [hne, if_false, hp, hc.1]
    have h63 : ¬ 9223372036854775808 ≤ v := by omega
    simp [h63]

theorem uint8_natCast (v : Nat) : uint8 (v : Int) = v % 256 := by
  unfold uint8
  omega

/-! ## `strconv.Atoi` on text that is not a numeral -/

theorem parseUintLoop_syntax (cs : List Char) : ∀ acc : Nat,
    cs.all Char.isDigit = false →
    digitsVal (cs.takeWhile Char.isDigit) acc ≤ maxUint64 →
    parseUintLoop cs acc = (0, some NumError.ErrSyntax) := by
  induction cs with
  | nil => intro acc h _; simp at h
  | cons c cs ih =>
    intro acc hbad hle
    by_cases hc : c.isDigit = true
    · have hrest : cs.all Char.isDigit = false := by
        simpa [List.all_cons, hc] using hbad
      simp only [List.takeWhile_cons, hc, if_true, digitsVal] at hle
      have hmono := le_digitsVal (cs.takeWhile Char.isDigit) (acc * 10 + (c.toNat - 48))
      have h1 : ¬ acc ≥ maxUint64 / 10 + 1 := by
        have : maxUint64 = 18446744073709551615 := by decide
        omega
      have h2 : ¬ acc * 10 + (c.toNat - 48) > maxUint64 := by omega
      simp only [parseUintLoop, hc, if_true, h1, if_false, h2]
      exact ih _ hrest hle
    · simp only [parseUintLoop, hc, Bool.false_eq_true, if_false]

theorem atoiFastLoop_syntax (cs : List Char) : ∀ acc : Int,
    cs.all Char.isDigit = false →
    atoiFastLoop cs acc = (0, some NumError.ErrSyntax) := by
  induction cs with
  | nil => intro acc h; simp at h
  | cons c cs ih =>
    intro acc hbad
    by_cases hc : c.isDigit = true
    · have hrest : cs.all Char.isDigit = false := by
        simpa [List.all_cons, hc] using hbad
      simp only [atoiFastLoop, hc, if_true]
      exact ih _ hrest
    · simp only [atoiFastLoop, hc, Bool.false_eq_true, if_false]

/-- `Atoi` gives 0 on text that is not an optionally signed numeral, as long
as the digits before the first offending character fit 64 bits. -/
theorem Atoi_syntax (val : String) (hbad : isDecimalInteger val.data = false)
    (hrun : digitsVal ((unsigned val.data).takeWhile Char.isDigit) 0 ≤ maxUint64) :
    (Atoi val).1 = 0 := by
  unfold Atoi
  cases hd : val.data with
  | nil => split <;> rfl
  | cons c cs =>
    rw [hd] at hbad hrun
    simp only [isDecimalInteger, unsigned] at hbad hrun
    by_cases hs : c = '-' ∨ c = '+'
    · have hs2 : c = '+' ∨ c = '-' := hs.symm
      simp only [hs, if_true] at hbad hrun
      by_cases he : cs = []
      · split
        · simp only [hs, if_true, he]
        · simp only [ParseInt, hs2, if_true, he, ParseUint]
      · have hall : cs.all Char.isDigit = false := by
          cases cs with
          | nil => exact absurd rfl he
          | cons x xs => simpa using hbad
        split
        · simp only [hs, if_true, he, if_false, atoiFastLoop_syntax cs 0 hall]
        · simp only [ParseInt, hs2, if_true, ParseUint, he, if_false,
            parseUintLoop_syntax cs 0 hall hrun]
    · have hs2 : ¬ (c = '+' ∨ c = '-') := fun h => hs h.symm
      simp only [hs, if_false] at hbad hrun
      have hall : (c :: cs).all Char.isDigit = false := by simpa using hbad
      have hne : ¬ (c :: cs = []) := by simp
      split
      · simp only [hs, if_false, hne, atoiFastLoop_syntax (c :: cs) 0 hall]
      · simp only [ParseInt, hs2, if_false, ParseUint, hne,
          parseUintLoop_syntax (c :: cs) 0 hall hrun]

theorem uint8_zero : uint8 0 = 0 := by decide

/-! ## The Retransmission Resolver -/

/-- The lookup key written out for a 4-byte destination address. -/
theorem sessionKey_dotted (name : String) (a b c d port : Nat) :
    sessionKey name [a, b, c, d] port =
      name ++ "@" ++ toString a ++ "." ++ toString b ++ "." ++ toString c ++ "."
        ++ toString d ++ ":" ++ toString port := by
  simp only [sessionKey, ipString, String.append_assoc]

/-- C3 as stated fails: the key `tcp@10.0.0.5:443` is present with the
decimal text of 256, and the resolver returns 0, not 256. -/
theorem C3_counterexample :
    wideConfig.Sessions ("tcp" ++ "@" ++ "10.0.0.5" ++ ":" ++ "443") = some (toString 256) ∧
      checkRetransmission wideConfig [10, 0, 0, 5] 6 443 = 0 ∧
      checkRetransmission wideConfig [10, 0, 0, 5] 6 443 ≠ 256 := by
  decide

/-- C3 (amended): the key is `<name>@<dotted address>:<port>` with name
icmp, tcp, udp for protocol 1, 6, 17 and unknown otherwise; if the key is
present with the decimal text of `v < 2^63` the resolver returns `v mod 256`
(the result is a `uint8`), hence exactly `v` when `v ≤ 255`; if the key is
absent it returns 0. -/
theorem C3_resolver_lookup (config : Config) (a b c d protocol dstPort v : Nat) :
    (getprotoname 1 = "icmp" ∧ getprotoname 6 = "tcp" ∧ getprotoname 17 = "udp" ∧
      (protocol ≠ 1 → protocol ≠ 6 → protocol ≠ 17 → getprotoname protocol = "unknown")) ∧
    (config.Sessions (getprotoname protocol ++ "@" ++ toString a ++ "." ++ toString b ++ "."
        ++ toString c ++ "." ++ toString d ++ ":" ++ toString dstPort) = some (toString v) →
      v < 2 ^ 63 →
      checkRetransmission config [a, b, c, d] protocol dstPort = v % 256 ∧
        (v ≤ 255 → checkRetransmission config [a, b, c, d] protocol dstPort = v)) ∧
    (config.Sessions (getprotoname protocol ++ "@" ++ toString a ++ "." ++ toString b ++ "."
        ++ toString c ++ "." ++ toString d ++ ":" ++ toString dstPort) = none →
      checkRetransmission config [a, b, c, d] protocol dstPort = 0) := by
  refine ⟨⟨by decide, by decide, by decide, ?_⟩, ?_, ?_⟩
  · intro h1 h6 h17
    simp [getprotoname, PROTO_ICMP, PROTO_TCP, PROTO_UDP, h1, h6, h17]
  · intro hkey hv
    rw [← sessionKey_dotted] at hkey
    have e : checkRetransmission config [a, b, c, d] protocol dstPort = v % 256 := by
      simp only [checkRetransmission, hkey, Atoi_toString v hv, uint8_natCast]
    refine ⟨e, ?_⟩
    intro hle
    rw [e]
    omega
  · intro hkey
    rw [← sessionKey_dotted] at hkey
    simp only [checkRetransmission, hkey]

/-- C3 (amended) on the scenario table: the entry `2` resolves to 2, the value
256 of `wideConfig` resolves to 0, and an absent key resolves to 0. -/
theorem C3_resolver_lookup_witness :
    checkRetransmission scenarioConfig [10, 0, 0, 5] 6 443 = 2 ∧
      checkRetransmission wideConfig [10, 0, 0, 5] 6 443 = 256 % 256 ∧
      checkRetransmission scenarioConfig [10, 0, 0, 5] 17 443 = 0 :=
  ⟨((C3_resolver_lookup scenarioConfig 10 0 0 5 6 443 2).2.1 (by decide) (by decide)).2
      (by decide),
    ((C3_resolver_lookup wideConfig 10 0 0 5 6 443 256).2.1 (by decide) (by decide)).1,
    (C3_resolver_lookup scenarioConfig 10 0 0 5 17 443 0).2.2 (by decide)⟩

/-- C4 as stated fails: the key is present with the value `-1`, which is not
the decimal text of a non-negative integer, and the resolver returns 255. -/
theorem C4_counterexample :
    negativeConfig.Sessions (sessionKey (getprotoname 6) [10, 0, 0, 5] 443) = some "-1" ∧
      isNonNegativeDecimal "-1".data = false ∧
      checkRetransmission negativeConfig [10, 0, 0, 5] 6 443 = 255 ∧
      checkRetransmission negativeConfig [10, 0, 0, 5] 6 443 ≠ 0 := by
  decide

/-- C4 (amended): if the key is present and its value is not an optionally
signed run of decimal digits (for example `abc` or the empty string), and the
digits before its first other character do not exceed 64 bits, the resolver
returns 0. -/
theorem C4_resolver_malformed_value (config : Config) (dstIP : List Nat)
    (protocol dstPort : Nat) (val : String)
    (hkey : config.Sessions (sessionKey (getprotoname protocol) dstIP dstPort) = some val)
    (hbad : isDecimalInteger val.data = false)
    (hrun : digitsVal ((unsigned val.data).takeWhile Char.isDigit) 0 ≤ maxUint64) :
    checkRetransmission config dstIP protocol dstPort = 0 := by
  simp only [checkRetransmission, hkey, Atoi_syntax val hbad hrun, uint8_zero]

/-- C4 (amended) on a table whose entry is `abc`. -/
theorem C4_resolver_malformed_value_witness :
    checkRetransmission garbledConfig [10, 0, 0, 5] 6 443 = 0 :=
  C4_resolver_malformed_value garbledConfig [10, 0, 0, 5] 6 443 "abc" (by decide) (by decide)
    (by decide)

end Pdcp

